import Mathlib

/-!
Shallow embedding of the kiroku changelog generator (src/kiroku/main.py) and
proofs about it.  The program scans a directory of per-release subdirectories,
parses YAML changelog fragments, groups them by release, sorts releases by
date descending and renders an RST changelog to standard output.

Modelling conventions:
- Python `datetime.date` values are `Date` records ordered lexicographically
  on (year, month, day); construction validity (`ValueError` on out-of-range
  fields, as documented for `datetime.date`) is modelled by `mkDate`.
- `Optional` values are `Option`; exceptions are `Except String`.
- The filesystem is passed explicitly: a release directory is its basename
  plus the list of YAML parse outcomes of the files inside it, in the order
  `glob.glob` returns them (the discovery order).
- Python `list.sort(key=..., reverse=True)` is a stable descending sort; any
  stable sort over the same total preorder produces the same list, so it is
  modelled by `List.insertionSort` (stable) over the descending date order.
-/

namespace Kiroku

/-- A calendar date, as the (year, month, day) triple carried by a Python
`datetime.date`.  Comparison of Python dates is lexicographic on this triple. -/
structure Date where
  year : Nat
  month : Nat
  day : Nat
deriving DecidableEq, Repr

/-- Python date ordering: lexicographic on (year, month, day). -/
def Date.le (a b : Date) : Prop :=
  a.year < b.year ∨ (a.year = b.year ∧
    (a.month < b.month ∨ (a.month = b.month ∧ a.day ≤ b.day)))

instance (a b : Date) : Decidable (Date.le a b) :=
  decidable_of_iff (a.year < b.year ∨ (a.year = b.year ∧
    (a.month < b.month ∨ (a.month = b.month ∧ a.day ≤ b.day)))) Iff.rfl

/-- The far-future sentinel `dtdate(9999, 1, 1)` that `Release.__init__`
stores for unreleased releases. -/
def sentinelDate : Date := ⟨9999, 1, 1⟩

/-- The module-level `categories` dict of main.py: the six category keys with
their display headers, in declaration order (Python dicts preserve insertion
order, and both `Release.__init__` and `to_rst` iterate it in this order). -/
def categories : List (String × String) :=
  [("added", "Added"), ("changed", "Changed"), ("deprecated", "Deprecated"),
   ("removed", "Removed"), ("fixed", "Fixed"), ("security", "Security")]

/-- The six recognized category keys, in declaration order. -/
def catKeys : List String := categories.map Prod.fst

/-- The `Release` class.  `_categories` is a Python dict kept in insertion
order; it is modelled as an association list.  `_version` is `Optional[str]`
in the Python signature but every call site passes a string, so it is a
`String` here.  `_date` is genuinely optional: `None` unless a date was
passed or the sentinel was substituted. -/
structure Release where
  version : String
  date : Option Date
  is_released : Bool
  cats : List (String × List String)
deriving DecidableEq, Repr

/-- `Release.__init__`: stores the arguments, replaces the date by the
far-future sentinel when the release is unreleased, and creates one empty
entry list per category key. -/
def Release.init (version : String) (date : Option Date) (is_released : Bool) :
    Release :=
  { version := version
    date := if is_released then date else some sentinelDate
    is_released := is_released
    cats := categories.map (fun kv => (kv.1, ([] : List String))) }

/-- `Release.add_entry`: raises `ValueError` for a category key not present in
`_categories`, otherwise appends the body to that category entry list. -/
def Release.add_entry (r : Release) (category_str body : String) :
    Except String Release :=
  if category_str ∈ r.cats.map Prod.fst then
    Except.ok { r with
      cats := r.cats.map (fun kv =>
        if kv.1 = category_str then (kv.1, kv.2 ++ [body]) else kv) }
  else
    Except.error ("Unknown category: " ++ category_str ++ ".")

/-- Dict lookup `rel.categories[c]`.  Every release the program builds has all
six keys, so the `KeyError` case (key absent) cannot occur; absent keys give
`[]` here. -/
def Release.getCat (r : Release) (c : String) : List String :=
  ((r.cats.find? (fun kv => kv.1 == c)).map Prod.snd).getD []

/-- `Release.item_count`: total number of entries across all categories. -/
def Release.item_count (r : Release) : Nat :=
  (r.cats.map (fun kv => kv.2.length)).sum

/-- `RST_RELEASE_SEP = "-" * 27`. -/
def RST_RELEASE_SEP : String := String.mk (List.replicate 27 '-')

/-- `RST_CATEGORY_SEP = "^" * 27`. -/
def RST_CATEGORY_SEP : String := String.mk (List.replicate 27 '^')

/-- `date.strftime("%Y-%m-%d")`: year unpadded (as on glibc; every date this
program formats has a year from a parsed directory component), month and day
zero-padded to two digits.  The `none` case models the Python attribute error
on a missing date, which is unreachable for scanner-produced releases; the
rendering theorems carry that reachability as a hypothesis. -/
def fmtOptDate : Option Date → String
  | some d =>
      let pad2 : Nat → String := fun n =>
        if n < 10 then "0" ++ toString n else toString n
      toString d.year ++ "-" ++ pad2 d.month ++ "-" ++ pad2 d.day
  | none => ""

/-- The lines the `to_rst` loop body appends for one (key, header) pair:
nothing when the category has no entries, otherwise the header, the caret
separator, one bullet per body, and a blank line. -/
def catLines (rel : Release) (c header : String) : List String :=
  if 0 < (rel.getCat c).length then
    [header, RST_CATEGORY_SEP] ++ (rel.getCat c).map (fun body => "* " ++ body)
      ++ [""]
  else []

/-- `to_rst`: title line (literal `Unreleased`, or `version (date)`), the dash
separator, the per-category sections in declaration order, and one final blank
line, joined with newlines. -/
def to_rst (rel : Release) : String :=
  let ss :=
    if rel.is_released = false then ["Unreleased", RST_RELEASE_SEP]
    else [rel.version ++ " (" ++ fmtOptDate rel.date ++ ")", RST_RELEASE_SEP]
  let ss := categories.foldl (fun acc ch => acc ++ catLines rel ch.1 ch.2) ss
  String.intercalate "\n" (ss ++ [""])

/-- One step of `to_rst` with the release threaded as explicit state, to make
observable that the loop body only reads the release. -/
def rstStep (acc : List String × Release) (ch : String × String) :
    List String × Release :=
  if 0 < (acc.2.getCat ch.1).length then
    (acc.1 ++ [ch.2, RST_CATEGORY_SEP]
      ++ (acc.2.getCat ch.1).map (fun body => "* " ++ body) ++ [""], acc.2)
  else acc

/-- `to_rst` executed statement by statement, threading the `Release` object
as the mutable state each statement could touch; the returned release is the
object as the function leaves it. -/
def to_rst_run (rel : Release) : String × Release :=
  let start : List String × Release :=
    if rel.is_released = false then (["Unreleased", RST_RELEASE_SEP], rel)
    else ([rel.version ++ " (" ++ fmtOptDate rel.date ++ ")", RST_RELEASE_SEP],
      rel)
  let fin := categories.foldl rstStep start
  (String.intercalate "\n" (fin.1 ++ [""]), fin.2)

/-! Directory scanning (`read_releaselog_dir`). -/

/-- Python `str.split("-")` on the character list: split at every dash, no
collapsing, so the empty string gives one empty component and adjacent
dashes give empty components. -/
def splitDashChars : List Char → List (List Char)
  | [] => [[]]
  | c :: rest =>
    if c = '-' then [] :: splitDashChars rest
    else
      match splitDashChars rest with
      | [] => [[c]]
      | g :: gs => (c :: g) :: gs

/-- Python `str.split("-")`. -/
def splitDash (s : String) : List String :=
  (splitDashChars s.data).map String.mk

/-- The ASCII whitespace characters `int()` strips before parsing (Python
strips all Unicode whitespace; directory name components here are ASCII). -/
def isPySpace (c : Char) : Bool :=
  c = ' ' || c = '\t' || c = '\n' || c = '\x0d' || c = '\x0b' || c = '\x0c'

/-- Strip leading and trailing whitespace, as `int()` does on its argument. -/
def pyStripChars (s : List Char) : List Char :=
  ((s.dropWhile isPySpace).reverse.dropWhile isPySpace).reverse

/-- Continuation of a Python integer digit run after its first digit: digits,
with single underscores allowed only between two digits. -/
def pyDigitsAux : List Char → Nat → Option Nat
  | [], acc => some acc
  | '_' :: c :: rest, acc =>
      if c.isDigit then pyDigitsAux rest (acc * 10 + (c.toNat - 48)) else none
  | c :: rest, acc =>
      if c.isDigit then pyDigitsAux rest (acc * 10 + (c.toNat - 48)) else none

/-- A Python integer digit run: one digit, then digits with optional single
underscores between digits.  `none` when the run is empty or malformed. -/
def pyDigitVal : List Char → Option Nat
  | [] => none
  | c :: rest => if c.isDigit then pyDigitsAux rest (c.toNat - 48) else none

/-- Python `int(s)` on a decimal string: surrounding whitespace stripped, an
optional sign, then a digit run.  `none` models the `ValueError` raised for
anything else.  (Non-ASCII digits, accepted by CPython, are not modelled;
directory names that exercise the claims are ASCII.) -/
def pyInt (s : String) : Option Int :=
  match pyStripChars s.data with
  | '+' :: rest => (pyDigitVal rest).map (fun n => (n : Int))
  | '-' :: rest => (pyDigitVal rest).map (fun n => -(n : Int))
  | rest => (pyDigitVal rest).map (fun n => (n : Int))

/-- Gregorian leap year, as `datetime.date` validates it. -/
def isLeap (y : Nat) : Bool :=
  y % 4 = 0 && (y % 100 != 0 || y % 400 = 0)

/-- Number of days of a month, for `datetime.date` field validation. -/
def daysInMonth (y m : Nat) : Nat :=
  if m = 2 then (if isLeap y then 29 else 28)
  else if m = 4 ∨ m = 6 ∨ m = 9 ∨ m = 11 then 30
  else 31

/-- `datetime.date(y, m, d)`: `some` date when the fields are in the
documented ranges (year 1..9999, month 1..12, day 1..days of that month),
`none` for the `ValueError` raised otherwise. -/
def mkDate (y m d : Int) : Option Date :=
  if 1 ≤ y ∧ y ≤ 9999 ∧ 1 ≤ m ∧ m ≤ 12 ∧ 1 ≤ d ∧
      d ≤ (daysInMonth y.toNat m.toNat : Int) then
    some ⟨y.toNat, m.toNat, d.toNat⟩
  else none

/-- The try/except block of `read_releaselog_dir` on one directory basename:
unpack `year-month-day-version` (a `ValueError` unless the split has exactly
four components), convert the first three with `int()` and build the date;
any `ValueError` falls back to (whole name, no date, unreleased).  Returns
(version string, date, is_released). -/
def parseDirName (name : String) : String × Option Date × Bool :=
  match splitDash name with
  | [year, month, day, version_str] =>
    match pyInt year, pyInt month, pyInt day with
    | some yi, some mi, some di =>
      match mkDate yi mi di with
      | some dt => (version_str, some dt, true)
      | none => (name, none, false)
    | _, _, _ => (name, none, false)
  | _ => (name, none, false)

/-- The `Release(...)` constructed for one scanned directory basename. -/
def mkRelease (name : String) : Release :=
  Release.init (parseDirName name).1 (parseDirName name).2.1
    (parseDirName name).2.2

/-- The YAML parse outcome of one fragment file: `none` when `yaml.safe_load`
fails (or does not yield a mapping), otherwise the top-level string fields of
the document as an association list. -/
abbrev Frag := Option (List (String × String))

/-- A release directory as the scanner sees it: its basename and the parse
outcomes of the files directly inside it, in discovery (glob) order. -/
structure Dir where
  name : String
  fragments : List Frag
deriving DecidableEq, Repr

/-- Python `entry[k]` on a parsed mapping: the value, or a `KeyError`. -/
def getField (doc : List (String × String)) (k : String) :
    Except String String :=
  match doc.find? (fun kv => kv.1 == k) with
  | some kv => Except.ok kv.2
  | none => Except.error ("KeyError: " ++ k)

/-- Evaluation of `entry["category"], entry["body"]` for one fragment file:
a failed YAML parse or a missing field is a fatal error. -/
def parseFragment (frag : Frag) : Except String (String × String) :=
  match frag with
  | none => Except.error "yaml parse error"
  | some doc =>
    match getField doc "category" with
    | Except.error e => Except.error e
    | Except.ok c =>
      match getField doc "body" with
      | Except.error e => Except.error e
      | Except.ok b => Except.ok (c, b)

/-- The inner fragment loop of `read_releaselog_dir`: parse each fragment and
`add_entry` it into the release; the first exception aborts. -/
def addFragments (rel : Release) : List Frag → Except String Release
  | [] => Except.ok rel
  | frag :: rest =>
    match parseFragment frag with
    | Except.error e => Except.error e
    | Except.ok cb =>
      match rel.add_entry cb.1 cb.2 with
      | Except.error e => Except.error e
      | Except.ok r2 => addFragments r2 rest

/-- One iteration of the directory loop of `read_releaselog_dir`. -/
def readRelease (d : Dir) : Except String Release :=
  addFragments (mkRelease d.name) d.fragments

/-- `read_releaselog_dir`: build one release per subdirectory, in discovery
order; the first exception aborts the whole scan. -/
def read_releaselog_dir : List Dir → Except String (List Release)
  | [] => Except.ok []
  | d :: rest =>
    match readRelease d with
    | Except.error e => Except.error e
    | Except.ok rel =>
      match read_releaselog_dir rest with
      | Except.error e => Except.error e
      | Except.ok rels => Except.ok (rel :: rels)

/-! Sorting and the changelog writer. -/

/-- Python date comparison lifted to the optional `_date` field used as the
sort key.  Comparing `None` with a date raises `TypeError` in Python; the
`none` cases are a total completion (unreachable for scanner-produced
releases, and the writer theorems assume every date is present). -/
def odLE : Option Date → Option Date → Prop
  | none, _ => True
  | some _, none => False
  | some a, some b => Date.le a b

instance : ∀ a b : Option Date, Decidable (odLE a b)
  | none, _ => isTrue trivial
  | some _, none => isFalse (fun h => h)
  | some x, some y => inferInstanceAs (Decidable (Date.le x y))

/-- The order `sort(key=lambda x: x.date, reverse=True)` sorts by: `a` may
come before `b` when the date of `a` is at least the date of `b`. -/
def byDateDesc (a b : Release) : Prop := odLE b.date a.date

instance : DecidableRel byDateDesc :=
  fun a b => inferInstanceAs (Decidable (odLE b.date a.date))

/-- `releases.sort(key=lambda x: x.date, reverse=True)`: Python list sort is
stable, so the sorted list is the one any stable sort over `byDateDesc`
produces; `List.insertionSort` is such a sort. -/
def sortByDateDesc (rels : List Release) : List Release :=
  rels.insertionSort byDateDesc

/-- The concatenation of rendered blocks the writer loop emits: in sorted
order, skipping unreleased releases when `hide_unreleased` is set and
releases with no entries. -/
def renderedBlocks (sorted : List Release) (hide_unreleased : Bool) : String :=
  String.join (sorted.filterMap (fun rel =>
    if hide_unreleased && !rel.is_released then none
    else if 0 < rel.item_count then some (to_rst rel) else none))

/-- `write_changelog`: writes the header, sorts the caller-supplied release
list in place, writes the kept blocks, writes the footer.  Returns the text
written to `text_io` together with the release list as the caller observes it
after the call (the in-place sort made observable). -/
def write_changelog (releases : List Release) (header footer : String)
    (hide_unreleased : Bool) : String × List Release :=
  let sorted := sortByDateDesc releases
  (header ++ renderedBlocks sorted hide_unreleased ++ footer, sorted)

/-! The CLI driver (`main`). -/

/-- The input directory as `main` reads it: the release subdirectories in
discovery order, and the contents of the optional `header` and `footer` files
(`read_text` returns the empty string when the file is missing). -/
structure InputDir where
  dirs : List Dir
  header : String
  footer : String
deriving DecidableEq, Repr

/-- `main` (after argument parsing): scan, write the changelog into a string
buffer, and `print` it — `print` appends one newline.  The result is the text
written to standard output, or the fatal error that aborted the run before
anything was printed. -/
def main (inp : InputDir) (hide_unreleased : Bool) : Except String String :=
  match read_releaselog_dir inp.dirs with
  | Except.error e => Except.error e
  | Except.ok releases =>
    Except.ok
      ((write_changelog releases inp.header inp.footer hide_unreleased).1
        ++ "\n")

instance {ε α : Type} [DecidableEq ε] [DecidableEq α] :
    DecidableEq (Except ε α) :=
  fun a b =>
    match a, b with
    | Except.ok x, Except.ok y => decidable_of_iff (x = y) (by simp)
    | Except.error e, Except.error f => decidable_of_iff (e = f) (by simp)
    | Except.ok _, Except.error _ => isFalse (fun h => Except.noConfusion h)
    | Except.error _, Except.ok _ => isFalse (fun h => Except.noConfusion h)

/-- Everything the process writes to standard output: the printed changelog
on success, nothing when it dies with an uncaught exception. -/
def stdoutOf : Except String String → String
  | Except.ok s => s
  | Except.error _ => ""

/-- The process exit code: 0 on success, 1 when an uncaught exception kills
the interpreter. -/
def exitCodeOf : Except String String → Nat
  | Except.ok _ => 0
  | Except.error _ => 1

/-- Convenience for stating concrete examples: `add_entry` with the success
value extracted (every concrete use below succeeds). -/
def addEntryD (r : Release) (c b : String) : Release :=
  match r.add_entry c b with
  | Except.ok r2 => r2
  | Except.error _ => r

/-! Concrete inputs used by witnesses and counterexamples. -/

/-- The released 1.2.0 release of the spec example, with one added entry X. -/
def relC : Release :=
  addEntryD (Release.init "1.2.0" (some ⟨2024, 3, 15⟩) true) "added" "X"

/-- A release discovered as `2024-01-01-1.0.0` with no entries. -/
def rOld : Release := Release.init "1.0.0" (some ⟨2024, 1, 1⟩) true

/-- A release discovered as `2024-06-01-1.1.0` with no entries. -/
def rNew : Release := Release.init "1.1.0" (some ⟨2024, 6, 1⟩) true

/-- An unreleased release with one entry, as scanned from a directory named
`unreleased`. -/
def cexRelU : Release :=
  addEntryD (Release.init "unreleased" none false) "added" "U"

/-- A released release dated 9999-12-31 — a later date than the unreleased
sentinel 9999-01-01 — with one entry, as scanned from a directory named
`9999-12-31-2.0.0`. -/
def cexRelA : Release :=
  addEntryD (Release.init "2.0.0" (some ⟨9999, 12, 31⟩) true) "added" "L"

/-- The scan input producing `cexRelU` then `cexRelA`, the unreleased
directory discovered first. -/
def cexDirs : List Dir :=
  [⟨"unreleased", [some [("category", "added"), ("body", "U")]]⟩,
   ⟨"9999-12-31-2.0.0", [some [("category", "added"), ("body", "L")]]⟩]

/-- A complete input directory for a successful end-to-end run, with a footer
that does not end in a newline. -/
def wInp : InputDir :=
  { dirs := [⟨"2024-01-02-1.0.0", [some [("category", "added"), ("body", "B")]]⟩]
    header := "H"
    footer := "FOOT" }

/-- An input directory whose single fragment has the unknown category
`bogus`. -/
def badCatInp : InputDir :=
  { dirs := [⟨"unreleased", [some [("category", "bogus"), ("body", "x")]]⟩]
    header := ""
    footer := "" }

/-- An input directory whose single fragment is missing the `body` field. -/
def badFieldInp : InputDir :=
  { dirs := [⟨"unreleased", [some [("category", "added")]]⟩]
    header := ""
    footer := "" }

/-!
Theorems.  First the ordering facts about the sort relation, then generic
helper lemmas, then one theorem per claim.
-/

/-- The date sort key order is total (on any two keys Python can compare). -/
theorem odLE_total (u v : Option Date) : odLE u v ∨ odLE v u := by
  cases u <;> cases v <;> simp only [odLE, Date.le] <;>
    first
    | left; trivial
    | right; trivial
    | omega

/-- The date sort key order is transitive. -/
theorem odLE_trans (u v w : Option Date) :
    odLE u v → odLE v w → odLE u w := by
  cases u <;> cases v <;> cases w <;> simp only [odLE, Date.le] <;>
    intro h1 h2 <;>
    first
    | trivial
    | exact h1.elim
    | exact h2.elim
    | omega

/-- The date sort key order is reflexive. -/
theorem odLE_refl (u : Option Date) : odLE u u := by
  cases u with
  | none => trivial
  | some d => exact Or.inr ⟨rfl, Or.inr ⟨rfl, Nat.le_refl _⟩⟩

instance : IsTotal Release byDateDesc := ⟨fun a b => odLE_total b.date a.date⟩

instance : IsTrans Release byDateDesc :=
  ⟨fun a b c hab hbc => odLE_trans c.date b.date a.date hbc hab⟩

/-- Inserting `a` in order commutes with filtering by a predicate no element
skipped over by the insertion can satisfy together with `a`: the filtered list
gains `a` at the front exactly when `a` satisfies the predicate.  (The skipped
elements are those `b` with `¬ r a b`.) -/
theorem filter_orderedInsert_of {α : Type} (r : α → α → Prop) [DecidableRel r]
    (p : α → Bool) (a : α) (l : List α)
    (hskip : ∀ b ∈ l, ¬ r a b → p a = true → p b = false) :
    (l.orderedInsert r a).filter p =
      if p a then a :: l.filter p else l.filter p := by
  induction l with
  | nil =>
    cases hpa : p a <;> simp [List.orderedInsert, List.filter, hpa]
  | cons b tl ih =>
    have hskip2 : ∀ x ∈ tl, ¬ r a x → p a = true → p x = false :=
      fun x hx => hskip x (List.mem_cons_of_mem _ hx)
    by_cases hr : r a b
    · rw [List.orderedInsert, if_pos hr]
      cases hpa : p a <;> simp [List.filter_cons, hpa]
    · rw [List.orderedInsert, if_neg hr]
      cases hpa : p a
      · simp only [List.filter_cons, ih hskip2, hpa, if_neg]
        simp
      · have hb : p b = false := hskip b (List.mem_cons_self b tl) hr hpa
        simp [List.filter_cons, ih hskip2, hpa, hb]

/-- Stability of insertion sort, as a filter equation: for a predicate that
never holds of an element skipped over while another satisfying it is
inserted, sorting does not change the filtered sublist. -/
theorem filter_insertionSort_of {α : Type} (r : α → α → Prop) [DecidableRel r]
    (p : α → Bool)
    (hskip : ∀ a b : α, ¬ r a b → p a = true → p b = false) :
    ∀ l : List α, (l.insertionSort r).filter p = l.filter p := by
  intro l
  induction l with
  | nil => rfl
  | cons a tl ih =>
    rw [List.insertionSort,
      filter_orderedInsert_of r p a _ (fun b _ => hskip a b)]
    cases hpa : p a <;> simp [List.filter_cons, hpa, ih]

/-- Two releases with the same date never separate during the descending date
sort: the skip condition of `filter_orderedInsert_of` holds for the predicate
comparing the date with any fixed key. -/
theorem byDateDesc_skip (dOpt : Option Date) :
    ∀ x y : Release, ¬ byDateDesc x y →
      decide (x.date = dOpt) = true → decide (y.date = dOpt) = false := by
  intro x y hnr hx
  rw [decide_eq_true_eq] at hx
  rw [decide_eq_false_iff_not]
  intro hy
  exact hnr (show odLE y.date x.date from hx ▸ hy ▸ odLE_refl dOpt)

/-- The category loop of `to_rst` appends nothing for categories with no
entries: folding over all categories equals folding over the categories that
have at least one entry. -/
theorem foldl_catLines_filter (rel : Release) :
    ∀ (chs : List (String × String)) (start : List String),
      chs.foldl (fun acc ch => acc ++ catLines rel ch.1 ch.2) start =
      (chs.filter (fun ch => decide (0 < (rel.getCat ch.1).length))).foldl
        (fun acc ch => acc ++ catLines rel ch.1 ch.2) start := by
  intro chs
  induction chs with
  | nil => intro start; rfl
  | cons ch tl ih =>
    intro start
    rw [List.foldl_cons, List.filter_cons]
    by_cases h : 0 < (rel.getCat ch.1).length
    · rw [if_pos (by simp [h]), List.foldl_cons, ih]
    · rw [if_neg (by simp [h])]
      have hcl : catLines rel ch.1 ch.2 = [] := by rw [catLines, if_neg h]
      rw [hcl, List.append_nil, ih]

/-- One loop step of the state-threaded renderer leaves the release as it
was. -/
theorem rstStep_snd (acc : List String × Release) (ch : String × String) :
    (rstStep acc ch).2 = acc.2 := by
  rw [rstStep]; split <;> rfl

/-- The whole category loop of the state-threaded renderer leaves the release
as it was. -/
theorem foldl_rstStep_snd :
    ∀ (chs : List (String × String)) (acc : List String × Release),
      (chs.foldl rstStep acc).2 = acc.2 := by
  intro chs
  induction chs with
  | nil => intro acc; rfl
  | cons ch tl ih => intro acc; rw [List.foldl_cons, ih, rstStep_snd]

/-- One loop step of the state-threaded renderer appends exactly the lines of
`catLines`. -/
theorem rstStep_fst (ss : List String) (rel : Release) (ch : String × String) :
    (rstStep (ss, rel) ch).1 = ss ++ catLines rel ch.1 ch.2 := by
  rw [rstStep, catLines]
  by_cases h : 0 < (rel.getCat ch.1).length
  · rw [if_pos h, if_pos h]; simp
  · rw [if_neg h, if_neg h]; simp

/-- The state-threaded category loop computes the same line list as the
functional one. -/
theorem foldl_rstStep_fst :
    ∀ (chs : List (String × String)) (ss : List String) (rel : Release),
      (chs.foldl rstStep (ss, rel)).1 =
        chs.foldl (fun acc ch => acc ++ catLines rel ch.1 ch.2) ss := by
  intro chs
  induction chs with
  | nil => intro ss rel; rfl
  | cons ch tl ih =>
    intro ss rel
    rw [List.foldl_cons, List.foldl_cons,
      show rstStep (ss, rel) ch = (ss ++ catLines rel ch.1 ch.2, rel) from
        Prod.ext (rstStep_fst ss rel ch) (rstStep_snd (ss, rel) ch)]
    exact ih _ _

/-- The state-threaded renderer returns the functional rendering next to the
unchanged release. -/
theorem to_rst_run_eq (rel : Release) : to_rst_run rel = (to_rst rel, rel) := by
  simp only [to_rst_run, to_rst]
  by_cases h : rel.is_released = false <;>
    simp [h, foldl_rstStep_fst, foldl_rstStep_snd]

/-- C2: for the released release 1.2.0 dated 2024-03-15 with the single
added entry X, the renderer emits exactly the title `1.2.0 (2024-03-15)`, an
underline of 27 dashes, the header `Added`, an underline of 27 carets, the
bullet `* X`, and the two block-terminating blank lines; and, for every
release, categories with zero entries contribute no header and no lines (the
category loop equals the loop over the nonempty categories only). -/
theorem C2_render_block :
    to_rst relC =
      "1.2.0 (2024-03-15)\n---------------------------\nAdded\n^^^^^^^^^^^^^^^^^^^^^^^^^^^\n* X\n\n" ∧
    RST_RELEASE_SEP.length = 27 ∧ RST_CATEGORY_SEP.length = 27 ∧
    ∀ rel : Release,
      to_rst rel = String.intercalate "\n"
        ((categories.filter
            (fun ch => decide (0 < (rel.getCat ch.1).length))).foldl
          (fun acc ch => acc ++ catLines rel ch.1 ch.2)
          (if rel.is_released = false then ["Unreleased", RST_RELEASE_SEP]
           else [rel.version ++ " (" ++ fmtOptDate rel.date ++ ")",
             RST_RELEASE_SEP]) ++ [""]) := by
  refine ⟨by decide, by decide, by decide, fun rel => ?_⟩
  simp only [to_rst]
  rw [foldl_catLines_filter]

/-- C8: rendering is a pure function of the release value and does not
modify the release: the statement-level renderer (with the release threaded
as the state each statement can touch) returns the release unchanged, a
second invocation on the returned release produces byte-identical text, and
the text is the functional rendering of the value.  The hypothesis restricts
the statement to releases the Python renderer can format at all (a released
release with no date would die on `strftime`). -/
theorem C8_render_pure (rel : Release)
    (_hdate : rel.is_released = true → rel.date.isSome) :
    (to_rst_run rel).2 = rel ∧
    (to_rst_run ((to_rst_run rel).2)).1 = (to_rst_run rel).1 ∧
    (to_rst_run rel).1 = to_rst rel := by
  rw [to_rst_run_eq]
  exact ⟨rfl, by rw [to_rst_run_eq], rfl⟩

/-- Witness for C8 at the concrete release of the spec example. -/
theorem C8_render_pure_witness :
    (to_rst_run relC).2 = relC ∧
    (to_rst_run ((to_rst_run relC).2)).1 = (to_rst_run relC).1 ∧
    (to_rst_run relC).1 = to_rst relC :=
  C8_render_pure relC (by decide)

/-- C9: `write_changelog` sorts the caller-supplied release list in place:
afterwards the caller observes the stable descending-date sort, and there is
an input list (two releases discovered oldest first) that the call reorders,
so the list is no longer in discovery order.  The first part assumes every
release has a date, which is what makes the Python sort key comparable. -/
theorem C9_sort_in_place :
    (∀ (rels : List Release) (header footer : String) (hide : Bool),
       (∀ r ∈ rels, r.date.isSome) →
       (write_changelog rels header footer hide).2 = sortByDateDesc rels) ∧
    (∃ rels : List Release, (write_changelog rels "" "" false).2 ≠ rels) := by
  constructor
  · intro rels header footer hide _
    rfl
  · exact ⟨[rOld, rNew], by decide⟩

/-- Witness for C9 at a concrete two-release list. -/
theorem C9_sort_in_place_witness :
    (write_changelog [rOld, rNew] "" "" false).2 = sortByDateDesc [rOld, rNew] :=
  C9_sort_in_place.1 [rOld, rNew] "" "" false (by decide)

/-- With `hide_unreleased` set, the writer loop emits blocks only for the
released releases: the filterMap over any release list equals the one over
its released elements. -/
theorem renderedBlocks_hide (l : List Release) :
    renderedBlocks l true =
      renderedBlocks (l.filter (fun r => r.is_released)) true := by
  unfold renderedBlocks
  congr 1
  induction l with
  | nil => rfl
  | cons r tl ih =>
    rw [List.filterMap_cons, List.filter_cons]
    cases hr : r.is_released
    · simpa [hr] using ih
    · cases hic : (if 0 < r.item_count then some (to_rst r) else none) <;>
        simp [hr, hic, List.filterMap_cons] at ih ⊢ <;> exact ih

/-- C6: with `hide_unreleased` set, `write_changelog` emits no block for any
unreleased release, whatever its entry count: the output is the header, the
blocks of the released releases only (in sorted order), and the footer.  The
hypothesis restricts to release lists whose dates the Python sort can
compare. -/
theorem C6_hide_unreleased (rels : List Release) (header footer : String)
    (_hwf : ∀ r ∈ rels, r.date.isSome) :
    (write_changelog rels header footer true).1 =
      header ++
        renderedBlocks ((sortByDateDesc rels).filter (fun r => r.is_released))
          true ++ footer := by
  show header ++ renderedBlocks (sortByDateDesc rels) true ++ footer = _
  rw [renderedBlocks_hide]

/-- Witness for C6: an unreleased release with an entry, discovered first,
contributes nothing when hidden. -/
theorem C6_hide_unreleased_witness :
    (write_changelog [cexRelU, rOld] "hh" "ff" true).1 =
      "hh" ++
        renderedBlocks
          ((sortByDateDesc [cexRelU, rOld]).filter (fun r => r.is_released))
          true ++ "ff" :=
  C6_hide_unreleased [cexRelU, rOld] "hh" "ff" (by decide)

/-- C1 (amended): `write_changelog` emits the rendered blocks in the stable
descending-date sort order — the sorted list is pairwise descending, and
releases with equal dates keep their discovery order (the filter by any date
key is unchanged) — and an unreleased release (which carries the sentinel
date) can be preceded by a released release only when that release is dated
at or after the sentinel 9999-01-01.  The claim as frozen also asserts that
every unreleased release precedes every released one; that fails for released
dates of 9999-01-01 through 9999-12-31 (see the counterexample). -/
theorem C1_sort_amended (rels : List Release) (header footer : String)
    (hide : Bool)
    (_hwf : ∀ r ∈ rels, r.date.isSome)
    (hsent : ∀ r ∈ rels, r.is_released = false → r.date = some sentinelDate) :
    (write_changelog rels header footer hide).1 =
      header ++ renderedBlocks (sortByDateDesc rels) hide ++ footer ∧
    List.Sorted byDateDesc (sortByDateDesc rels) ∧
    (∀ dOpt : Option Date,
      (sortByDateDesc rels).filter (fun r => decide (r.date = dOpt)) =
        rels.filter (fun r => decide (r.date = dOpt))) ∧
    (∀ (i j : Nat) (hi : i < (sortByDateDesc rels).length)
        (hj : j < (sortByDateDesc rels).length), i < j →
      ((sortByDateDesc rels).get ⟨i, hi⟩).is_released = true →
      ((sortByDateDesc rels).get ⟨j, hj⟩).is_released = false →
      odLE (some sentinelDate) ((sortByDateDesc rels).get ⟨i, hi⟩).date) := by
  refine ⟨rfl, List.sorted_insertionSort byDateDesc rels, ?_, ?_⟩
  · intro dOpt
    exact filter_insertionSort_of byDateDesc _ (byDateDesc_skip dOpt) rels
  · intro i j hi hj hij _hrel hunrel
    have hsorted : List.Sorted byDateDesc (sortByDateDesc rels) :=
      List.sorted_insertionSort byDateDesc rels
    have hp := List.pairwise_iff_getElem.mp hsorted i j hi hj hij
    have hmem : (sortByDateDesc rels).get ⟨j, hj⟩ ∈ rels := by
      rw [List.get_eq_getElem]
      exact (List.mem_insertionSort byDateDesc).mp (List.getElem_mem hj)
    have hd : ((sortByDateDesc rels).get ⟨j, hj⟩).date = some sentinelDate :=
      hsent _ hmem hunrel
    rw [List.get_eq_getElem] at hd ⊢
    have hle : odLE ((sortByDateDesc rels)[j]).date
        ((sortByDateDesc rels)[i]).date := hp
    rw [hd] at hle
    exact hle

/-- Witness for C1 (amended), extracting the stability equation at the
concrete two-release input. -/
theorem C1_sort_witness :
    (sortByDateDesc [cexRelU, cexRelA]).filter
        (fun r => decide (r.date = some sentinelDate)) =
      [cexRelU, cexRelA].filter (fun r => decide (r.date = some sentinelDate)) :=
  (C1_sort_amended [cexRelU, cexRelA] "" "" false (by decide)
    (by decide)).2.2.1 (some sentinelDate)

set_option maxRecDepth 4096 in
/-- Counterexample to C1 as frozen: the scanner accepts the directory
`9999-12-31-2.0.0` as a released version dated 9999-12-31, which is a later
date than the unreleased sentinel 9999-01-01; even though the unreleased
directory is discovered first, the writer emits the released block before the
`Unreleased` block. -/
theorem C1_sort_counterexample :
    read_releaselog_dir cexDirs = Except.ok [cexRelU, cexRelA] ∧
    cexRelU.is_released = false ∧ cexRelU.date = some sentinelDate ∧
    cexRelA.is_released = true ∧ cexRelA.date = some ⟨9999, 12, 31⟩ ∧
    0 < cexRelU.item_count ∧ 0 < cexRelA.item_count ∧
    sortByDateDesc [cexRelU, cexRelA] = [cexRelA, cexRelU] ∧
    (write_changelog [cexRelU, cexRelA] "" "" false).1 =
      to_rst cexRelA ++ to_rst cexRelU ∧
    to_rst cexRelA ≠ to_rst cexRelU := by
  decide

/-- Updating one category entry list does not change the key list. -/
theorem map_fst_update (c b : String) (l : List (String × List String)) :
    (l.map (fun kv => if kv.1 = c then (kv.1, kv.2 ++ [b]) else kv)).map
        Prod.fst = l.map Prod.fst := by
  induction l with
  | nil => rfl
  | cons kv tl ih =>
    simp only [List.map_cons, ih, List.cons.injEq, and_true]
    split <;> rfl

/-- A successful `add_entry` keeps the key list of the categories dict. -/
theorem add_entry_ok_keys (r r2 : Release) (c b : String)
    (h : r.add_entry c b = Except.ok r2) :
    r2.cats.map Prod.fst = r.cats.map Prod.fst := by
  rw [Release.add_entry] at h
  by_cases hm : c ∈ r.cats.map Prod.fst
  · rw [if_pos hm] at h
    cases h
    exact map_fst_update c b r.cats
  · rw [if_neg hm] at h
    cases h

/-- A successful `add_entry` was called with a key of the categories dict. -/
theorem add_entry_ok_mem (r r2 : Release) (c b : String)
    (h : r.add_entry c b = Except.ok r2) : c ∈ r.cats.map Prod.fst := by
  rw [Release.add_entry] at h
  by_cases hm : c ∈ r.cats.map Prod.fst
  · exact hm
  · rw [if_neg hm] at h
    cases h

/-- `Release.__init__` creates exactly the six category keys, in order. -/
theorem init_keys (v : String) (dt : Option Date) (isr : Bool) :
    (Release.init v dt isr).cats.map Prod.fst = catKeys := rfl

/-- The release built for a scanned directory has the six category keys. -/
theorem mkRelease_keys (name : String) :
    (mkRelease name).cats.map Prod.fst = catKeys :=
  init_keys _ _ _

/-- When the fragment loop of the scanner succeeds, the key invariant is
preserved and every fragment of the directory parsed to a (category, body)
pair whose category is one of the six keys. -/
theorem addFragments_ok :
    ∀ (frags : List Frag) (rel r2 : Release),
      rel.cats.map Prod.fst = catKeys →
      addFragments rel frags = Except.ok r2 →
      r2.cats.map Prod.fst = catKeys ∧
      ∀ frag ∈ frags, ∃ c b, parseFragment frag = Except.ok (c, b) ∧
        c ∈ catKeys := by
  intro frags
  induction frags with
  | nil =>
    intro rel r2 hk h
    cases h
    exact ⟨hk, by intro frag hf; cases hf⟩
  | cons frag tl ih =>
    intro rel r2 hk h
    rw [addFragments] at h
    cases hpf : parseFragment frag with
    | error e => simp only [hpf] at h; cases h
    | ok cb =>
      simp only [hpf] at h
      cases hae : rel.add_entry cb.1 cb.2 with
      | error e => simp only [hae] at h; cases h
      | ok r1 =>
        simp only [hae] at h
        have hk1 : r1.cats.map Prod.fst = catKeys := by
          rw [add_entry_ok_keys rel r1 cb.1 cb.2 hae, hk]
        obtain ⟨hk2, hall⟩ := ih r1 r2 hk1 h
        refine ⟨hk2, ?_⟩
        intro f hf
        rcases List.mem_cons.mp hf with rfl | hf2
        · refine ⟨cb.1, cb.2, by rw [hpf], ?_⟩
          rw [← hk]
          exact add_entry_ok_mem rel r1 cb.1 cb.2 hae
        · exact hall f hf2

/-- When the scan succeeds, every directory produced a release. -/
theorem read_releaselog_dir_ok :
    ∀ (dirs : List Dir) (rels : List Release),
      read_releaselog_dir dirs = Except.ok rels →
      ∀ d ∈ dirs, ∃ rel, readRelease d = Except.ok rel := by
  intro dirs
  induction dirs with
  | nil => intro rels _ d hd; cases hd
  | cons d0 tl ih =>
    intro rels h d hd
    rw [read_releaselog_dir] at h
    cases hr : readRelease d0 with
    | error e => rw [hr] at h; cases h
    | ok rel0 =>
      rw [hr] at h
      cases hrest : read_releaselog_dir tl with
      | error e => rw [hrest] at h; cases h
      | ok rels0 =>
        rcases List.mem_cons.mp hd with rfl | hd2
        · exact ⟨rel0, hr⟩
        · exact ih rels0 hrest d hd2

/-- A failed scan is a fatal error of the whole run. -/
theorem main_error_out (inp : InputDir) (hide : Bool) (e : String)
    (h : read_releaselog_dir inp.dirs = Except.error e) :
    main inp hide = Except.error e := by
  simp only [main, h]

/-- C7: the categories mapping of a release holds exactly the six keys
added, changed, deprecated, removed, fixed, security, in declaration order:
at construction, after every successful `add_entry`, and for every release
the scanner produces. -/
theorem C7_category_keys :
    catKeys =
      ["added", "changed", "deprecated", "removed", "fixed", "security"] ∧
    (∀ (v : String) (dt : Option Date) (isr : Bool),
      (Release.init v dt isr).cats.map Prod.fst = catKeys) ∧
    (∀ (r r2 : Release) (c b : String),
      r.cats.map Prod.fst = catKeys → r.add_entry c b = Except.ok r2 →
      r2.cats.map Prod.fst = catKeys) ∧
    (∀ (d : Dir) (rel : Release), readRelease d = Except.ok rel →
      rel.cats.map Prod.fst = catKeys) := by
  refine ⟨by decide, init_keys, ?_, ?_⟩
  · intro r r2 c b hk h
    rw [add_entry_ok_keys r r2 c b h, hk]
  · intro d rel h
    exact (addFragments_ok d.fragments (mkRelease d.name) rel
      (mkRelease_keys d.name) h).1

/-- Witness for C7 at a concrete construction. -/
theorem C7_category_keys_witness :
    (Release.init "1.0.0" none false).cats.map Prod.fst = catKeys :=
  C7_category_keys.2.1 "1.0.0" none false

/-- C4: a fragment whose category value is outside the six recognized keys
makes the run die with an uncaught exception: the process exit code is 1
(not 0) and nothing is written to standard output. -/
theorem C4_unknown_category (inp : InputDir) (hide : Bool) (d : Dir)
    (doc : List (String × String)) (c : String)
    (hd : d ∈ inp.dirs) (hf : (some doc : Frag) ∈ d.fragments)
    (hcat : getField doc "category" = Except.ok c) (hbad : c ∉ catKeys) :
    (∃ e, main inp hide = Except.error e) ∧
    exitCodeOf (main inp hide) = 1 ∧ stdoutOf (main inp hide) = "" := by
  cases hm : read_releaselog_dir inp.dirs with
  | error e =>
    have he := main_error_out inp hide e hm
    exact ⟨⟨e, he⟩, by rw [he]; rfl, by rw [he]; rfl⟩
  | ok rels =>
    exfalso
    obtain ⟨rel, hrel⟩ := read_releaselog_dir_ok inp.dirs rels hm d hd
    obtain ⟨-, hall⟩ := addFragments_ok d.fragments (mkRelease d.name) rel
      (mkRelease_keys d.name) hrel
    obtain ⟨c2, b2, hpf, hc2⟩ := hall (some doc) hf
    rw [parseFragment, hcat] at hpf
    cases hbody : getField doc "body" with
    | error e => rw [hbody] at hpf; cases hpf
    | ok b3 =>
      rw [hbody] at hpf
      cases hpf
      exact hbad hc2

/-- Witness for C4: the single fragment carries `category: bogus`. -/
theorem C4_unknown_category_witness :
    (∃ e, main badCatInp false = Except.error e) ∧
    exitCodeOf (main badCatInp false) = 1 ∧
    stdoutOf (main badCatInp false) = "" :=
  C4_unknown_category badCatInp false
    ⟨"unreleased", [some [("category", "bogus"), ("body", "x")]]⟩
    [("category", "bogus"), ("body", "x")] "bogus"
    (by decide) (by decide) (by decide) (by decide)

/-- C5: a fragment that does not parse as a YAML mapping, or is missing the
category or body field, makes the run die with an uncaught exception before
anything is printed: the exit code is 1 and standard output stays empty, so
no partial changelog is ever produced. -/
theorem C5_malformed_fragment (inp : InputDir) (hide : Bool) (d : Dir)
    (frag : Frag) (hd : d ∈ inp.dirs) (hf : frag ∈ d.fragments)
    (hbad : frag = none ∨ ∃ doc, frag = some doc ∧
      ((∃ e, getField doc "category" = Except.error e) ∨
       (∃ e, getField doc "body" = Except.error e))) :
    (∃ e, main inp hide = Except.error e) ∧
    exitCodeOf (main inp hide) = 1 ∧ stdoutOf (main inp hide) = "" := by
  cases hm : read_releaselog_dir inp.dirs with
  | error e =>
    have he := main_error_out inp hide e hm
    exact ⟨⟨e, he⟩, by rw [he]; rfl, by rw [he]; rfl⟩
  | ok rels =>
    exfalso
    obtain ⟨rel, hrel⟩ := read_releaselog_dir_ok inp.dirs rels hm d hd
    obtain ⟨-, hall⟩ := addFragments_ok d.fragments (mkRelease d.name) rel
      (mkRelease_keys d.name) hrel
    obtain ⟨c2, b2, hpf, -⟩ := hall frag hf
    rcases hbad with rfl | ⟨doc, rfl, herr⟩
    · rw [parseFragment] at hpf
      cases hpf
    · rw [parseFragment] at hpf
      rcases herr with ⟨e, he⟩ | ⟨e, he⟩
      · rw [he] at hpf
        cases hpf
      · cases hcat : getField doc "category" with
        | error e2 => rw [hcat] at hpf; cases hpf
        | ok c3 => rw [hcat, he] at hpf; cases hpf

/-- Witness for C5: the single fragment is missing the body field. -/
theorem C5_malformed_fragment_witness :
    (∃ e, main badFieldInp false = Except.error e) ∧
    exitCodeOf (main badFieldInp false) = 1 ∧
    stdoutOf (main badFieldInp false) = "" :=
  C5_malformed_fragment badFieldInp false
    ⟨"unreleased", [some [("category", "added")]]⟩
    (some [("category", "added")]) (by decide) (by decide)
    (Or.inr ⟨[("category", "added")], rfl, Or.inr ⟨"KeyError: body",
      by decide⟩⟩)

/-- C10: on every successful run the driver prints the assembled buffer with
`print`, so standard output is the header, the rendered blocks in sorted
order, and the footer, followed by exactly one extra newline — also when the
footer is empty or does not end in a newline — and the exit code is 0. -/
theorem C10_stdout_newline (inp : InputDir) (hide : Bool) (s : String)
    (h : main inp hide = Except.ok s) :
    ∃ rels, read_releaselog_dir inp.dirs = Except.ok rels ∧
      s = inp.header ++ renderedBlocks (sortByDateDesc rels) hide ++
        inp.footer ++ "\n" ∧
      stdoutOf (main inp hide) = s ∧ exitCodeOf (main inp hide) = 0 := by
  cases hm : read_releaselog_dir inp.dirs with
  | error e =>
    rw [main_error_out inp hide e hm] at h
    cases h
  | ok rels =>
    have hmain : main inp hide = Except.ok
        ((write_changelog rels inp.header inp.footer hide).1 ++ "\n") := by
      simp only [main, hm]
    rw [hmain] at h
    cases h
    exact ⟨rels, rfl, rfl, by rw [hmain]; rfl, by rw [hmain]; rfl⟩

/-- Witness for C10: a run with header `H` and the newline-free footer
`FOOT`. -/
theorem C10_stdout_newline_witness :
    ∃ rels, read_releaselog_dir wInp.dirs = Except.ok rels ∧
      "H1.0.0 (2024-01-02)\n---------------------------\nAdded\n^^^^^^^^^^^^^^^^^^^^^^^^^^^\n* B\n\nFOOT\n" =
        wInp.header ++ renderedBlocks (sortByDateDesc rels) false ++
          wInp.footer ++ "\n" ∧
      stdoutOf (main wInp false) =
        "H1.0.0 (2024-01-02)\n---------------------------\nAdded\n^^^^^^^^^^^^^^^^^^^^^^^^^^^\n* B\n\nFOOT\n" ∧
      exitCodeOf (main wInp false) = 0 :=
  C10_stdout_newline wInp false
    "H1.0.0 (2024-01-02)\n---------------------------\nAdded\n^^^^^^^^^^^^^^^^^^^^^^^^^^^\n* B\n\nFOOT\n"
    (by decide)

/-- C3: for every scanned subdirectory basename, when the name splits on
dashes into exactly four components whose first three `int()`-parse and form
a valid calendar date, the scanner constructs a released release whose
version is the fourth component and whose date is built from the first
three; otherwise — wrong number of components, a non-numeric year, month or
day, or an invalid calendar date — it constructs an unreleased release whose
version is the whole basename and whose stored date is the far-future
sentinel. -/
theorem C3_scan_parse (name : String) :
    (∀ (y m d v : String) (yi mi di : Int) (dt : Date),
      splitDash name = [y, m, d, v] →
      pyInt y = some yi → pyInt m = some mi → pyInt d = some di →
      mkDate yi mi di = some dt →
      mkRelease name = Release.init v (some dt) true ∧
      (mkRelease name).version = v ∧ (mkRelease name).date = some dt ∧
      (mkRelease name).is_released = true) ∧
    ((¬ ∃ (y m d v : String) (yi mi di : Int) (dt : Date),
        splitDash name = [y, m, d, v] ∧ pyInt y = some yi ∧
        pyInt m = some mi ∧ pyInt d = some di ∧ mkDate yi mi di = some dt) →
      mkRelease name = Release.init name none false ∧
      (mkRelease name).version = name ∧
      (mkRelease name).date = some sentinelDate ∧
      (mkRelease name).is_released = false) := by
  constructor
  · intro y m d v yi mi di dt h1 h2 h3 h4 h5
    have hp : parseDirName name = (v, some dt, true) := by
      rw [parseDirName, h1]
      simp only [h2, h3, h4, h5]
    rw [mkRelease, hp]
    exact ⟨rfl, rfl, rfl, rfl⟩
  · intro hno
    have hp : parseDirName name = (name, none, false) := by
      rw [parseDirName]
      cases hs : splitDash name with
      | nil => rfl
      | cons y t1 =>
        cases t1 with
        | nil => rfl
        | cons m t2 =>
          cases t2 with
          | nil => rfl
          | cons d t3 =>
            cases t3 with
            | nil => rfl
            | cons v t4 =>
              cases t4 with
              | cons a t5 => rfl
              | nil =>
                cases h2 : pyInt y with
                | none => simp only [h2]
                | some yi =>
                  cases h3 : pyInt m with
                  | none => simp only [h2, h3]
                  | some mi =>
                    cases h4 : pyInt d with
                    | none => simp only [h2, h3, h4]
                    | some di =>
                      cases h5 : mkDate yi mi di with
                      | none => simp only [h2, h3, h4, h5]
                      | some dt =>
                        exact absurd
                          ⟨y, m, d, v, yi, mi, di, dt, hs, h2, h3, h4, h5⟩
                          hno
    rw [mkRelease, hp]
    exact ⟨rfl, rfl, rfl, rfl⟩

/-- Witness for C3: a well-formed released directory name and a plain
unreleased bucket name. -/
theorem C3_scan_parse_witness :
    mkRelease "2024-03-15-1.2.0" =
      Release.init "1.2.0" (some ⟨2024, 3, 15⟩) true ∧
    mkRelease "unreleased" = Release.init "unreleased" none false :=
  ⟨((C3_scan_parse "2024-03-15-1.2.0").1 "2024" "03" "15" "1.2.0" 2024 3 15
      ⟨2024, 3, 15⟩ (by decide) (by decide) (by decide) (by decide)
      (by decide)).1,
   ((C3_scan_parse "unreleased").2 (by
      rintro ⟨y, m, d, v, yi, mi, di, dt, hs, -⟩
      rw [show splitDash "unreleased" = ["unreleased"] from by decide] at hs
      simp at hs)).1⟩

end Kiroku
